import Mathlib

/-!
Verification of the zotero-mcp repository.

Part A embeds the Zotero MCP Bridge plugin
(`src/zotero-plugin/addon/content/zotero-mcp.js`): the `searchItems`,
`addToCollection` and `handleRpcRequest` handlers, with JavaScript
`Array.slice` semantics for limit truncation and JS truthiness for the
`!query` / `!method` guards (an absent or non-string value is modelled as
`none`, the empty string is the falsy string).

Part B models the relevance-ranking search core described by the spec
(tokenizer, signal matcher, scorer, ranker, citation-key resolver).  That
core lives in the Python server `zotero_mcp.py`, which is not part of the
source tree here; the definitions are therefore modelled from the spec's
words and marked as such.
-/

deriving instance DecidableEq for Except

namespace ZoteroMcp

/-- A Zotero item as seen by the plugin: its key plus the predicates the
plugin consults (`isNote()`, `isAttachment()`, `isRegularItem()`). -/
structure PluginItem where
  key : String
  isNote : Bool
  isAttachment : Bool
  isRegularItem : Bool
deriving DecidableEq

/-- The error object built by `rpcError(code, message, status)`. -/
structure RpcError where
  code : String
  message : String
  status : Nat
deriving DecidableEq

/-- The result object returned by `searchItems`. -/
structure SearchResult where
  query : String
  total : Nat
  items : List PluginItem
deriving DecidableEq

/-- JavaScript `Array.prototype.slice(0, e)`: a negative end counts from
the end of the array (clamped at 0), a nonnegative end truncates. -/
def jsSlice {α : Type} (l : List α) (e : Int) : List α :=
  if e < 0 then l.take ((l.length : Int) + e).toNat else l.take e.toNat

/-- `searchItems` from `zotero-mcp.js` (lines 354-377).  `query = none`
models an absent or non-string query; `limit = none` models an absent
limit, defaulted to 50 by the destructuring `limit = 50`.  `found` is the
item list produced by the underlying `Zotero.Search` for the query, in
Zotero's order; the handler truncates it with `slice(0, limit)`, fetches
the items, then keeps only regular items, reporting their count as
`total`. -/
def searchItems (query : Option String) (limit : Option Int)
    (found : List PluginItem) : Except RpcError SearchResult :=
  match query with
  | none => .error ⟨"INVALID_PARAMS", "Search query is required", 400⟩
  | some q =>
    if q = "" then .error ⟨"INVALID_PARAMS", "Search query is required", 400⟩
    else
      let lim := limit.getD 50
      let limited := jsSlice found lim
      let regularItems := limited.filter (fun it => it.isRegularItem)
      .ok ⟨q, regularItems.length, regularItems⟩

/-- One entry of the `errors` array built by `addToCollection`. -/
structure AddError where
  key : String
  error : String
deriving DecidableEq

/-- The result object returned by `addToCollection` (the JS handler emits
`errors: undefined` when the list is empty; that is modelled by the empty
list). -/
structure AddResult where
  collectionKey : String
  added : List String
  errors : List AddError
deriving DecidableEq

/-- The per-key loop of `addToCollection` (lines 235-254): a missing item
or a note/attachment yields an error entry and the loop continues;
otherwise `collection.addItem` succeeds and the key is recorded as added. -/
def addItemLoop (lookup : String → Option PluginItem) :
    List String → List String × List AddError
  | [] => ([], [])
  | k :: ks =>
    let rest := addItemLoop lookup ks
    match lookup k with
    | none => (rest.1, ⟨k, "Item not found"⟩ :: rest.2)
    | some it =>
      if it.isNote || it.isAttachment then
        (rest.1, ⟨k, "Cannot add notes or attachments directly"⟩ :: rest.2)
      else
        (k :: rest.1, rest.2)

/-- `addToCollection` from `zotero-mcp.js` (lines 217-263).  `lookup`
models `Zotero.Items.getByLibraryAndKeyAsync`; `collectionFound` models
whether `Zotero.Collections.getByLibraryAndKeyAsync` found the collection. -/
def addToCollection (lookup : String → Option PluginItem)
    (collectionFound : Bool) (collectionKey : String)
    (itemKeys : List String) : Except RpcError AddResult :=
  if collectionKey = "" then
    .error ⟨"INVALID_PARAMS", "Collection key is required", 400⟩
  else if itemKeys.isEmpty then
    .error ⟨"INVALID_PARAMS", "Item keys array is required", 400⟩
  else if !collectionFound then
    .error ⟨"NOT_FOUND", "Collection not found: " ++ collectionKey, 404⟩
  else
    let res := addItemLoop lookup itemKeys
    .ok ⟨collectionKey, res.1, res.2⟩

/-- Whether the loop body records the key as added: the item exists and is
neither a note nor an attachment. -/
def addOk (lookup : String → Option PluginItem) (k : String) : Bool :=
  match lookup k with
  | none => false
  | some it => !(it.isNote || it.isAttachment)

/-- The error message the loop body attaches to a rejected key. -/
def addErrMsg (lookup : String → Option PluginItem) (k : String) : String :=
  match lookup k with
  | none => "Item not found"
  | some _ => "Cannot add notes or attachments directly"

/-- Outcome of `handleRpcRequest`: dispatch to a named command handler, or
an error with code and HTTP status. -/
inductive RpcOutcome where
  | ok (cmd : String)
  | err (code : String) (status : Nat)
deriving DecidableEq

/-- The seven command names of the `switch` in `handleRpcRequest`. -/
def supportedMethods : List String :=
  ["createCollection", "getCollection", "addToCollection",
   "removeFromCollection", "searchItems", "getItem", "listCollections"]

/-- `handleRpcRequest` from `zotero-mcp.js` (lines 106-133): the
`if (!method)` guard fires for an absent method and for the falsy empty
string, then the `switch` dispatches the seven commands, with
`METHOD_NOT_FOUND` (404) as the default case. -/
def handleRpcRequest (method : Option String) : RpcOutcome :=
  match method with
  | none => .err "INVALID_REQUEST" 400
  | some m =>
    if m = "" then .err "INVALID_REQUEST" 400
    else if m = "createCollection" then .ok "createCollection"
    else if m = "getCollection" then .ok "getCollection"
    else if m = "addToCollection" then .ok "addToCollection"
    else if m = "removeFromCollection" then .ok "removeFromCollection"
    else if m = "searchItems" then .ok "searchItems"
    else if m = "getItem" then .ok "getItem"
    else if m = "listCollections" then .ok "listCollections"
    else .err "METHOD_NOT_FOUND" 404

/-- Two regular items used in concrete evaluations. -/
def itemA : PluginItem := ⟨"AAA", false, false, true⟩

/-- A second regular item used in concrete evaluations. -/
def itemB : PluginItem := ⟨"BBB", false, false, true⟩

/-!
### Part B: the relevance-ranking search core, modelled from the spec

The spec's core (tokenizer, signal matcher, scorer, ranker, citation-key
resolver) is implemented by the Python server `zotero_mcp.py`, which is
absent from the source tree (only its README describes it).  The
definitions below are modelled from the spec's words (sections 4.1-4.6),
using the spec's recommended constants.
-/

/-- Alphanumeric test used for tokenization boundaries. -/
def isAlnumChar (c : Char) : Bool := c.isAlpha || c.isDigit

/-- Helper for `tokenize`: accumulates the current token (reversed) while
scanning. -/
def tokenizeAux : List Char → List Char → List (List Char)
  | [], acc => if acc.isEmpty then [] else [acc.reverse]
  | c :: cs, acc =>
    if isAlnumChar c then tokenizeAux cs (c.toLower :: acc)
    else if acc.isEmpty then tokenizeAux cs []
    else acc.reverse :: tokenizeAux cs []

/-- Modelled from the spec: the Tokenizer/Normalizer (section 4.1) of the
missing Python search core — lowercase, split on runs of non-alphanumeric
characters, empty tokens dropped, duplicates preserved in order. -/
def tokenize (s : List Char) : List (List Char) := tokenizeAux s []

/-- Whether `pat` is a leading run of `l`. -/
def startsWithL : List Char → List Char → Bool
  | [], _ => true
  | _ :: _, [] => false
  | a :: as, b :: bs => a == b && startsWithL as bs

/-- Whether `pat` occurs contiguously anywhere inside `l`. -/
def containsSub (pat : List Char) : List Char → Bool
  | [] => pat.isEmpty
  | c :: cs => startsWithL pat (c :: cs) || containsSub pat cs

/-- The character 3-grams of a token. -/
def trigrams : List Char → List (List Char)
  | a :: b :: c :: rest => [a, b, c] :: trigrams (b :: c :: rest)
  | _ => []

/-- Modelled from the spec: trigram-overlap (Dice coefficient) similarity
between two tokens, used by the Fuzzy tier of the signal matcher
(section 4.3) of the missing Python search core. -/
def diceSim (x y : List Char) : ℚ :=
  if (trigrams x).toFinset.card + (trigrams y).toFinset.card = 0 then 0
  else (2 * ((trigrams x).toFinset ∩ (trigrams y).toFinset).card : ℚ) /
    (((trigrams x).toFinset.card : ℚ) + ((trigrams y).toFinset.card : ℚ))

/-- The best trigram similarity between a term and any token of a field. -/
def bestSim (t : List Char) : List (List Char) → ℚ
  | [] => 0
  | w :: ws => max (diceSim t w) (bestSim t ws)

/-- Base score of an Exact signal (spec: strongest tier). -/
def scoreExact : ℚ := 10

/-- Base score of a WordBoundary signal (second tier). -/
def scoreWordBoundary : ℚ := 6

/-- Base score of a Substring signal (third tier). -/
def scoreSubstring : ℚ := 3

/-- Base score of a Fuzzy signal (weakest tier, scaled by similarity). -/
def scoreFuzzy : ℚ := 2

/-- Fuzzy-similarity threshold (spec's recommended 0.35). -/
def fuzzyThreshold : ℚ := 7 / 20

/-- Multiplicative AND-bonus factor (spec's recommended 1.2). -/
def andBonusFactor : ℚ := 6 / 5

/-- Modelled from the spec: the Signal Matcher (section 4.3) of the
missing Python search core.  For one (term, fieldText) pair it returns
the single strongest applicable signal's score: Exact when the normalized
field equals the term, else WordBoundary when the term occurs as a whole
token, else Substring when the term occurs anywhere in the lowercased
field, else the similarity-scaled Fuzzy score when the best token
similarity meets the threshold, else 0. -/
def signalScore (term fieldText : List Char) : ℚ :=
  if tokenize fieldText = [term] then scoreExact
  else if term ∈ tokenize fieldText then scoreWordBoundary
  else if containsSub term (fieldText.map Char.toLower) then scoreSubstring
  else if fuzzyThreshold ≤ bestSim term (tokenize fieldText) then
    scoreFuzzy * bestSim term (tokenize fieldText)
  else 0

/-- One weighted searchable field of an item. -/
structure WeightedField where
  name : String
  text : List Char
  weight : ℚ
deriving DecidableEq

/-- Modelled from the spec: a term's total contribution (section 4.4),
the sum across all fields of `signalScore × fieldWeight`. -/
def termContribution (fields : List WeightedField) (t : List Char) : ℚ :=
  (fields.map (fun f => signalScore t f.text * f.weight)).sum

/-- Modelled from the spec: the raw item score (section 4.4), the sum of
all terms' contributions. -/
def rawScore (fields : List WeightedField) (terms : List (List Char)) : ℚ :=
  (terms.map (termContribution fields)).sum

/-- Whether every query term produced a nonzero contribution. -/
def allTermsMatch (fields : List WeightedField) (terms : List (List Char)) : Bool :=
  terms.all (fun t => decide (termContribution fields t ≠ 0))

/-- Modelled from the spec: the Scorer (section 4.4) of the missing
Python search core — the raw score, multiplied by the AND-bonus exactly
when every term produced a nonzero contribution. -/
def scoreItem (fields : List WeightedField) (terms : List (List Char)) : ℚ :=
  if allTermsMatch fields terms then andBonusFactor * rawScore fields terms
  else rawScore fields terms

/-- The field names in which at least one term produced a signal. -/
def matchedFields (fields : List WeightedField) (terms : List (List Char)) :
    List String :=
  (fields.filter (fun f => terms.any (fun t => decide (signalScore t f.text ≠ 0)))).map
    (fun f => f.name)

/-- A creator of a bibliographic item. -/
structure Creator where
  firstName : String
  lastName : String
deriving DecidableEq

/-- Modelled from the spec: the LibraryItem data model (section 3) of the
missing Python search core — scalar metadata fields, creators, tags, the
free-text "extra" field consulted by the citation-key resolver, and the
`dateAdded` timestamp used for tie-breaking. -/
structure SpecItem where
  key : String
  title : String
  abstractNote : String
  publicationTitle : String
  doi : String
  url : String
  year : String
  creators : List Creator
  tags : List String
  extra : String
  dateAdded : Nat
deriving DecidableEq

/-- Field weight: title (README: 3x). -/
def weightTitle : ℚ := 3

/-- Field weight: citation key (README: 3x). -/
def weightCitationKey : ℚ := 3

/-- Field weight: DOI (README: 2x). -/
def weightDOI : ℚ := 2

/-- Field weight: authors (README: 2x). -/
def weightAuthors : ℚ := 2

/-- Field weight: tags (README: 1.5x). -/
def weightTags : ℚ := 3 / 2

/-- Field weight: abstract (README: 1x). -/
def weightAbstract : ℚ := 1

/-- Field weight: publication title (unspecified; default 1). -/
def weightPublication : ℚ := 1

/-- Field weight: url (unspecified; default 1). -/
def weightUrl : ℚ := 1

/-- Field weight: year (unspecified; default 1). -/
def weightYear : ℚ := 1

/-- Authors rendered as each creator's `lastName firstName`, joined by
spaces (spec section 4.2). -/
def authorsText (cs : List Creator) : String :=
  String.intercalate " " (cs.map (fun c => c.lastName ++ " " ++ c.firstName))

/-- Tags joined by spaces (spec section 4.2). -/
def tagsText (ts : List String) : String := String.intercalate " " ts

/-- A single weighted field, omitted when its text is empty (spec 4.2:
fields with null/empty text never contribute, never error). -/
def mkField (name : String) (text : String) (w : ℚ) : List WeightedField :=
  if text = "" then [] else [⟨name, text.data, w⟩]

/-- Modelled from the spec: the Field Extractor (section 4.2) of the
missing Python search core; the citation key comes from the resolver. -/
def extractFields (citeKey : Option String) (it : SpecItem) : List WeightedField :=
  mkField "title" it.title weightTitle ++
  mkField "citationKey" (citeKey.getD "") weightCitationKey ++
  mkField "DOI" it.doi weightDOI ++
  mkField "authors" (authorsText it.creators) weightAuthors ++
  mkField "tags" (tagsText it.tags) weightTags ++
  mkField "abstractNote" it.abstractNote weightAbstract ++
  mkField "publicationTitle" it.publicationTitle weightPublication ++
  mkField "url" it.url weightUrl ++
  mkField "year" it.year weightYear

/-- Splits a character list into lines at newline characters. -/
def splitLinesAux : List Char → List Char → List (List Char)
  | [], acc => [acc.reverse]
  | c :: cs, acc =>
    if c = '\n' then acc.reverse :: splitLinesAux cs []
    else splitLinesAux cs (c :: acc)

/-- The lines of a character list. -/
def splitLines (s : List Char) : List (List Char) := splitLinesAux s []

/-- Lowercases every character. -/
def lowerL (l : List Char) : List Char := l.map Char.toLower

/-- The first whitespace-delimited token of a character list. -/
def takeToken (l : List Char) : List Char :=
  (l.dropWhile (fun c => c.isWhitespace)).takeWhile (fun c => !c.isWhitespace)

/-- If `line` starts (case-insensitively, after leading whitespace) with
`marker`, the first token after the marker; otherwise `none`. -/
def keyAfterMarker (marker line : List Char) : Option (List Char) :=
  let line := line.dropWhile (fun c => c.isWhitespace)
  if startsWithL (lowerL marker) (lowerL line) then
    let tok := takeToken (line.drop marker.length)
    if tok.isEmpty then none else some tok
  else none

/-- A line's citation key: a `Citation Key:` marker wins over a `bibtex:`
marker (both case-insensitive). -/
def parseLineKey (line : List Char) : Option (List Char) :=
  match keyAfterMarker ("Citation Key:".data) line with
  | some k => some k
  | none => keyAfterMarker ("bibtex:".data) line

/-- The first `some` produced by `f` along a list. -/
def firstSome {α β : Type} (f : α → Option β) : List α → Option β
  | [] => none
  | a :: as =>
    match f a with
    | some b => some b
    | none => firstSome f as

/-- Modelled from the spec: step 2 of the Citation-Key Resolver
(section 4.6) of the missing Python search core — parse the item's
"extra" field line by line for a `Citation Key:` or `bibtex:` marker,
first match wins. -/
def parseExtraCitationKey (extra : String) : Option String :=
  (firstSome parseLineKey (splitLines extra.data)).map (fun l => String.mk l)

/-- Modelled from the spec: the Citation-Key Resolver's priority order
(section 4.6) — the "extra"-field key, if any, always takes priority over
the secondary external store; with neither, the key is absent. -/
def resolveCitationKey (store : String → Option String) (it : SpecItem) :
    Option String :=
  match parseExtraCitationKey it.extra with
  | some k => some k
  | none => store it.key

/-- The process-wide citation-key cache: item key to resolved key or a
cached "absent" sentinel. -/
abbrev CiteCache : Type := List (String × Option String)

/-- Association-list lookup in the citation-key cache. -/
def cacheFind : CiteCache → String → Option (Option String)
  | [], _ => none
  | (k, v) :: rest, key => if k = key then some v else cacheFind rest key

/-- Modelled from the spec: the memoized Citation-Key Resolver
(section 4.6) of the missing Python search core — a cache hit (including
a cached "absent") returns immediately; otherwise the key is resolved
once and inserted. -/
def resolveMemo (store : String → Option String) (cache : CiteCache)
    (it : SpecItem) : Option String × CiteCache :=
  match cacheFind cache it.key with
  | some r => (r, cache)
  | none =>
    let r := resolveCitationKey store it
    (r, (it.key, r) :: cache)

/-- A scored search result (spec section 3: ScoredResult). -/
structure ScoredResult where
  item : SpecItem
  score : ℚ
  matchedFields : List String
deriving DecidableEq

/-- The ranker's strict precedence: score descending, then `dateAdded`
descending, then item key ascending (spec section 4.5). -/
def resultLt (a b : ScoredResult) : Prop :=
  b.score < a.score ∨
    (a.score = b.score ∧
      (b.item.dateAdded < a.item.dateAdded ∨
        (a.item.dateAdded = b.item.dateAdded ∧ a.item.key < b.item.key)))

instance : DecidableRel resultLt := fun a b => by
  unfold resultLt
  infer_instance

/-- The ranker's sort relation: `a` may come before `b` (the negation of
`b` strictly preceding `a`). -/
def resultOrder (a b : ScoredResult) : Prop := ¬ resultLt b a

instance : DecidableRel resultOrder := fun a b => by
  unfold resultOrder
  infer_instance

/-- Inserts a result into an already ranked list at its ordered place. -/
def rankInsert (a : ScoredResult) : List ScoredResult → List ScoredResult
  | [] => [a]
  | b :: l => if resultOrder a b then a :: b :: l else b :: rankInsert a l

/-- Modelled from the spec: the Ranker's sort (section 4.5) — insertion
sort by descending score, ties broken by descending `dateAdded`, then by
ascending item key. -/
def rank : List ScoredResult → List ScoredResult
  | [] => []
  | a :: l => rankInsert a (rank l)

/-- Modelled from the spec: the Ranker's limit handling (section 4.5) —
an absent limit defaults to 50, a limit at most 0 is clamped to 1. -/
def clampLimit (limit : Option Int) : Nat :=
  match limit with
  | none => 50
  | some n => if n ≤ 0 then 1 else n.toNat

/-- Scores a single item: its survival entry when its score is positive
(spec 4.4: score 0 means drop, never emit a zero-score result). -/
def scoreEntry (store : String → Option String) (terms : List (List Char))
    (it : SpecItem) : Option ScoredResult :=
  if 0 < scoreItem (extractFields (resolveCitationKey store it) it) terms then
    some ⟨it, scoreItem (extractFields (resolveCitationKey store it) it) terms,
          matchedFields (extractFields (resolveCitationKey store it) it) terms⟩
  else none

/-- The scored-and-filtered results: only items with a positive score
survive. -/
def scoredResults (store : String → Option String) (terms : List (List Char))
    (items : List SpecItem) : List ScoredResult :=
  items.filterMap (scoreEntry store terms)

/-- The search output: the query, the pre-truncation count of surviving
items, and the ranked, truncated result sequence (spec sections 4.5, 6). -/
structure SpecSearchOutput where
  query : String
  total : Nat
  items : List ScoredResult
deriving DecidableEq

/-- Modelled from the spec: the whole search pipeline (sections 4.1-4.5)
of the missing Python search core — tokenize, score each item, drop
zero scores, rank, truncate to the clamped limit, and report the
pre-truncation total. -/
def searchPapers (store : String → Option String) (q : String)
    (limit : Option Int) (items : List SpecItem) : SpecSearchOutput :=
  let terms := tokenize q.data
  let scored := scoredResults store terms items
  let ranked := rank scored
  ⟨q, scored.length, ranked.take (clampLimit limit)⟩

/-!
### Concrete data used in evaluations and witnesses
-/

/-- A note item (as the plugin sees it). -/
def noteItem : PluginItem := ⟨"NNN", true, false, false⟩

/-- A concrete item lookup: one regular item, one note, all else missing. -/
def lookupW : String → Option PluginItem := fun k =>
  if k = "GOOD" then some itemA
  else if k = "NOTE" then some noteItem
  else none

/-- A concrete library item whose "extra" field carries a citation key. -/
def itemCite : SpecItem :=
  ⟨"K1", "Some Paper", "", "", "", "", "", [], [], "Citation Key: ABC123", 7⟩

/-- A secondary store mapping every item to `XYZ999`. -/
def storeXYZ : String → Option String := fun _ => some "XYZ999"

/-- A concrete item whose title matches the query term `alpha`. -/
def itemP : SpecItem := ⟨"KA", "alpha beta", "", "", "", "", "", [], [], "", 10⟩

/-- A second concrete item whose title matches the query term `alpha`. -/
def itemQ : SpecItem := ⟨"KB", "alpha gamma", "", "", "", "", "", [], [], "", 20⟩

/-- A concrete single weighted field used in scorer witnesses. -/
def fieldsW : List WeightedField := [⟨"title", "alpha beta".data, 3⟩]

/-!
## Theorems
-/

/-- C1 counterexample: with two regular matches and limit 1, the plugin
reports `total = 1`, not the pre-truncation count 2 — `total` is computed
from the already truncated list. -/
theorem searchItems_total_counterexample :
    searchItems (some "x") (some 1) [itemA, itemB] = .ok ⟨"x", 1, [itemA]⟩ ∧
    ([itemA, itemB].filter (fun it => it.isRegularItem)).length = 2 := by
  decide

/-- C1 (amended): every successful `searchItems` reports `total` equal to
the number of items it returns, namely the regular items among the first
`limit` matches — the count is taken after truncation, not before. -/
theorem searchItems_total_after_truncation (q : Option String)
    (lim : Option Int) (found : List PluginItem) (r : SearchResult)
    (h : searchItems q lim found = .ok r) :
    r.total = r.items.length ∧
    r.items = (jsSlice found (lim.getD 50)).filter (fun it => it.isRegularItem) := by
  cases q with
  | none => simp [searchItems] at h
  | some s =>
    by_cases hs : s = ""
    · simp [searchItems, hs] at h
    · simp only [searchItems, hs, if_false, Except.ok.injEq] at h
      subst h
      exact ⟨rfl, rfl⟩

/-- Witness for C1's amended theorem at a concrete input. -/
theorem searchItems_total_after_truncation_witness :
    (SearchResult.mk "x" 1 [itemA]).total = (SearchResult.mk "x" 1 [itemA]).items.length ∧
    (SearchResult.mk "x" 1 [itemA]).items =
      (jsSlice [itemA, itemB] ((some (1 : Int)).getD 50)).filter (fun it => it.isRegularItem) :=
  searchItems_total_after_truncation (some "x") (some 1) [itemA, itemB]
    ⟨"x", 1, [itemA]⟩ (by decide)

/-- C2 counterexample: a limit of 0 yields an empty result instead of
being clamped to 1, and a limit of -1 drops one item from the end
(JavaScript `slice` semantics) instead of being clamped. -/
theorem searchItems_limit_counterexample :
    searchItems (some "x") (some 0) [itemA] = .ok ⟨"x", 0, []⟩ ∧
    searchItems (some "x") (some (-1)) [itemA, itemB] = .ok ⟨"x", 1, [itemA]⟩ := by
  decide

/-- C2 (amended): an absent limit defaults to 50, but a limit at most 0
is not clamped — it is passed to `slice` unchanged (0 gives no items, a
negative limit drops items from the end); no error is raised and the
result is still well-formed. -/
theorem searchItems_limit_not_clamped (q : String) (n : Int)
    (found : List PluginItem) (hq : q ≠ "") :
    searchItems (some q) none found = searchItems (some q) (some 50) found ∧
    ∃ r, searchItems (some q) (some n) found = .ok r ∧
      r.items = (jsSlice found n).filter (fun it => it.isRegularItem) ∧
      r.total = r.items.length := by
  constructor
  · simp [searchItems, hq]
  · exact ⟨⟨q, ((jsSlice found n).filter (fun it => it.isRegularItem)).length,
      (jsSlice found n).filter (fun it => it.isRegularItem)⟩,
      by simp [searchItems, hq], rfl, rfl⟩

/-- Witness for C2's amended theorem at a concrete input. -/
theorem searchItems_limit_not_clamped_witness :
    searchItems (some "x") none [itemA, itemB] =
      searchItems (some "x") (some 50) [itemA, itemB] ∧
    ∃ r, searchItems (some "x") (some (-1)) [itemA, itemB] = .ok r ∧
      r.items = (jsSlice [itemA, itemB] (-1)).filter (fun it => it.isRegularItem) ∧
      r.total = r.items.length :=
  searchItems_limit_not_clamped "x" (-1) [itemA, itemB] (by decide)

/-- C3 counterexample: a whitespace-only query (which trims to the empty
string) is not rejected — the handler proceeds and returns results. -/
theorem searchItems_whitespace_counterexample :
    searchItems (some " ") (some 5) [itemA] = .ok ⟨" ", 1, [itemA]⟩ ∧
    (" ").data.all Char.isWhitespace = true := by
  decide

/-- C3 (amended): an absent (or non-string) or empty query fails with
`INVALID_PARAMS` before any search, but a whitespace-only query is not
rejected; for every nonempty query string the error is not raised. -/
theorem searchItems_query_validation (lim : Option Int) (found : List PluginItem) :
    searchItems none lim found =
      .error ⟨"INVALID_PARAMS", "Search query is required", 400⟩ ∧
    searchItems (some "") lim found =
      .error ⟨"INVALID_PARAMS", "Search query is required", 400⟩ ∧
    ∀ q : String, q ≠ "" → ∃ r, searchItems (some q) lim found = .ok r := by
  refine ⟨rfl, by simp [searchItems], fun q hq => ?_⟩
  refine ⟨⟨q, ((jsSlice found (lim.getD 50)).filter (fun it => it.isRegularItem)).length,
    (jsSlice found (lim.getD 50)).filter (fun it => it.isRegularItem)⟩, ?_⟩
  simp [searchItems, hq]

/-- Witness for C3's amended theorem at a concrete input. -/
theorem searchItems_query_validation_witness :
    searchItems none (some 5) [] =
      .error ⟨"INVALID_PARAMS", "Search query is required", 400⟩ ∧
    ∃ r, searchItems (some "abc") (some 5) [] = .ok r :=
  ⟨(searchItems_query_validation (some 5) []).1,
   (searchItems_query_validation (some 5) []).2.2 "abc" (by decide)⟩

/-- C8: every successful search returns only regular items — notes and
attachments are filtered out after the underlying search — and `total`
counts exactly the regular items among the truncated candidates. -/
theorem searchItems_only_regular (q : Option String) (lim : Option Int)
    (found : List PluginItem) (r : SearchResult)
    (h : searchItems q lim found = .ok r) :
    (∀ it ∈ r.items, it.isRegularItem = true) ∧
    r.total = r.items.length ∧
    r.total = ((jsSlice found (lim.getD 50)).filter (fun it => it.isRegularItem)).length := by
  cases q with
  | none => simp [searchItems] at h
  | some s =>
    by_cases hs : s = ""
    · simp [searchItems, hs] at h
    · simp only [searchItems, hs, if_false, Except.ok.injEq] at h
      subst h
      refine ⟨fun it hit => ?_, rfl, rfl⟩
      exact (List.mem_filter.mp hit).2

/-- Witness for C8 at a concrete input containing a note. -/
theorem searchItems_only_regular_witness :
    (∀ it ∈ (SearchResult.mk "x" 1 [itemA]).items, it.isRegularItem = true) ∧
    (SearchResult.mk "x" 1 [itemA]).total = (SearchResult.mk "x" 1 [itemA]).items.length ∧
    (SearchResult.mk "x" 1 [itemA]).total =
      ((jsSlice [itemA, noteItem] ((some (5 : Int)).getD 50)).filter
        (fun it => it.isRegularItem)).length :=
  searchItems_only_regular (some "x") (some 5) [itemA, noteItem]
    ⟨"x", 1, [itemA]⟩ (by decide)

/-- The per-key loop adds exactly the keys whose item exists and is
neither a note nor an attachment, and produces one error entry (with the
loop's message) for every other key, in order. -/
theorem addItemLoop_spec (lookup : String → Option PluginItem) :
    ∀ keys : List String,
      (addItemLoop lookup keys).1 = keys.filter (fun k => addOk lookup k) ∧
      (addItemLoop lookup keys).2 =
        (keys.filter (fun k => !(addOk lookup k))).map
          (fun k => ⟨k, addErrMsg lookup k⟩) := by
  intro keys
  induction keys with
  | nil => simp [addItemLoop]
  | cons k ks ih =>
    obtain ⟨ih1, ih2⟩ := ih
    cases hl : lookup k with
    | none =>
      have hok : addOk lookup k = false := by simp [addOk, hl]
      have hmsg : addErrMsg lookup k = "Item not found" := by
        simp [addErrMsg, hl]
      simp [addItemLoop, hl, List.filter_cons, hok, hmsg, ih1, ih2]
    | some it =>
      have hok : addOk lookup k = (!(it.isNote || it.isAttachment)) := by
        simp [addOk, hl]
      have hmsg : addErrMsg lookup k = "Cannot add notes or attachments directly" := by
        simp [addErrMsg, hl]
      by_cases hn : (it.isNote || it.isAttachment) = true
      · have hok' : addOk lookup k = false := by rw [hok, hn]; rfl
        simp [addItemLoop, hl, hn, List.filter_cons, hok', hmsg, ih1, ih2]
      · have hn' : (it.isNote || it.isAttachment) = false := by
          simp only [Bool.not_eq_true] at hn
          exact hn
        have hok' : addOk lookup k = true := by rw [hok, hn']; rfl
        simp [addItemLoop, hl, hn', List.filter_cons, hok', ih1, ih2]

/-- Filtering a list by a predicate and by its negation partitions its
length. -/
theorem length_filter_partition (p : String → Bool) :
    ∀ l : List String,
      (l.filter p).length + (l.filter (fun a => !p a)).length = l.length := by
  intro l
  induction l with
  | nil => rfl
  | cons a l ih =>
    cases h : p a with
    | false =>
      simp only [List.filter_cons, h, Bool.not_false, Bool.false_eq_true,
        if_false, if_true, List.length_cons]
      omega
    | true =>
      simp only [List.filter_cons, h, Bool.not_true, Bool.false_eq_true,
        if_true, if_false, List.length_cons]
      omega

/-- C9: with a found collection and a nonempty key array,
`addToCollection` succeeds and partitions the keys: `added` holds exactly
the keys of addable items, `errors` holds one entry per remaining key
(missing item, note, or attachment), the two lists' lengths sum to the
number of keys, and every key lands in exactly one of the two lists. -/
theorem addToCollection_partition (lookup : String → Option PluginItem)
    (ck : String) (keys : List String) (hck : ck ≠ "") (hne : keys ≠ []) :
    ∃ r : AddResult, addToCollection lookup true ck keys = .ok r ∧
      r.added = keys.filter (fun k => addOk lookup k) ∧
      r.errors = (keys.filter (fun k => !(addOk lookup k))).map
        (fun k => ⟨k, addErrMsg lookup k⟩) ∧
      r.added.length + r.errors.length = keys.length ∧
      ∀ k ∈ keys,
        (k ∈ r.added ∧ k ∉ r.errors.map AddError.key) ∨
        (k ∉ r.added ∧ k ∈ r.errors.map AddError.key) := by
  have hspec := addItemLoop_spec lookup keys
  refine ⟨⟨ck, (addItemLoop lookup keys).1, (addItemLoop lookup keys).2⟩,
    ?_, hspec.1, hspec.2, ?_, ?_⟩
  · simp [addToCollection, hck, hne]
  · rw [hspec.1, hspec.2, List.length_map]
    exact length_filter_partition _ keys
  · intro k hk
    have hkeys : (addItemLoop lookup keys).2.map AddError.key =
        keys.filter (fun k => !(addOk lookup k)) := by
      rw [hspec.2, List.map_map]
      have hcomp : (AddError.key ∘ fun k => (⟨k, addErrMsg lookup k⟩ : AddError)) =
          fun k : String => k := rfl
      rw [hcomp, List.map_id']
    by_cases hok : addOk lookup k = true
    · left
      constructor
      · rw [hspec.1]
        exact List.mem_filter.mpr ⟨hk, hok⟩
      · rw [hkeys]
        intro hmem
        have hneg := (List.mem_filter.mp hmem).2
        simp [hok] at hneg
    · right
      constructor
      · rw [hspec.1]
        intro hmem
        exact hok (List.mem_filter.mp hmem).2
      · rw [hkeys]
        refine List.mem_filter.mpr ⟨hk, ?_⟩
        simp [hok]

/-- Witness for C9 at a concrete input: one good key, one note, one
missing item. -/
theorem addToCollection_partition_witness :
    ∃ r : AddResult,
      addToCollection lookupW true "COL" ["GOOD", "NOTE", "MISSING"] = .ok r ∧
      r.added = ["GOOD", "NOTE", "MISSING"].filter (fun k => addOk lookupW k) ∧
      r.errors = (["GOOD", "NOTE", "MISSING"].filter (fun k => !(addOk lookupW k))).map
        (fun k => ⟨k, addErrMsg lookupW k⟩) ∧
      r.added.length + r.errors.length = ["GOOD", "NOTE", "MISSING"].length ∧
      ∀ k ∈ ["GOOD", "NOTE", "MISSING"],
        (k ∈ r.added ∧ k ∉ r.errors.map AddError.key) ∨
        (k ∉ r.added ∧ k ∈ r.errors.map AddError.key) :=
  addToCollection_partition lookupW "COL" ["GOOD", "NOTE", "MISSING"]
    (by decide) (by decide)

/-- C10 counterexample: a present-but-empty `method` string is not one of
the seven commands, yet the handler answers `INVALID_REQUEST` (400), not
`METHOD_NOT_FOUND` (404) — the JS falsiness guard `!method` fires first. -/
theorem handleRpc_empty_method_counterexample :
    handleRpcRequest (some "") = .err "INVALID_REQUEST" 400 ∧
    ("" ∈ supportedMethods → False) ∧
    ¬ handleRpcRequest (some "") = .err "METHOD_NOT_FOUND" 404 := by
  decide

/-- C10 (amended): the handler answers `METHOD_NOT_FOUND` (404) exactly
when the method is present, nonempty, and not one of the seven supported
commands; an absent method — or the falsy empty string — gets
`INVALID_REQUEST` (400) instead. -/
theorem handleRpc_dispatch (m : Option String) :
    (handleRpcRequest m = .err "METHOD_NOT_FOUND" 404 ↔
      ∃ s, m = some s ∧ s ≠ "" ∧ s ∉ supportedMethods) ∧
    handleRpcRequest none = .err "INVALID_REQUEST" 400 ∧
    handleRpcRequest (some "") = .err "INVALID_REQUEST" 400 := by
  refine ⟨?_, rfl, by decide⟩
  cases m with
  | none => simp [handleRpcRequest]
  | some s =>
    by_cases h0 : s = ""
    · subst h0
      simp [handleRpcRequest, supportedMethods]
    · simp only [handleRpcRequest]
      rw [if_neg h0]
      split_ifs with h1 h2 h3 h4 h5 h6 h7 <;>
        simp_all [supportedMethods]

/-- Trigram similarity is nonnegative. -/
theorem diceSim_nonneg (x y : List Char) : 0 ≤ diceSim x y := by
  unfold diceSim
  split
  · exact le_refl 0
  · exact div_nonneg (by positivity) (by positivity)

/-- Trigram similarity is at most 1. -/
theorem diceSim_le_one (x y : List Char) : diceSim x y ≤ 1 := by
  unfold diceSim
  split
  · exact zero_le_one
  · rename_i h
    have h1 : ((trigrams x).toFinset ∩ (trigrams y).toFinset).card ≤
        (trigrams x).toFinset.card :=
      Finset.card_le_card Finset.inter_subset_left
    have h2 : ((trigrams x).toFinset ∩ (trigrams y).toFinset).card ≤
        (trigrams y).toFinset.card :=
      Finset.card_le_card Finset.inter_subset_right
    have hpos : (0 : ℚ) < ((trigrams x).toFinset.card : ℚ) +
        ((trigrams y).toFinset.card : ℚ) := by
      have hne : 0 < (trigrams x).toFinset.card + (trigrams y).toFinset.card :=
        Nat.pos_of_ne_zero h
      exact_mod_cast hne
    rw [div_le_one hpos]
    have hnum : 2 * ((trigrams x).toFinset ∩ (trigrams y).toFinset).card ≤
        (trigrams x).toFinset.card + (trigrams y).toFinset.card := by omega
    exact_mod_cast hnum

/-- The best token similarity is nonnegative. -/
theorem bestSim_nonneg (t : List Char) : ∀ ws, 0 ≤ bestSim t ws
  | [] => le_refl 0
  | _ :: ws => le_max_of_le_right (bestSim_nonneg t ws)

/-- The best token similarity is at most 1. -/
theorem bestSim_le_one (t : List Char) : ∀ ws, bestSim t ws ≤ 1
  | [] => zero_le_one
  | w :: ws => max_le (diceSim_le_one t w) (bestSim_le_one t ws)

/-- C4: the base scores are strictly ordered
Exact > WordBoundary > Substring > Fuzzy > 0, and the signal matcher
assigns each (term, fieldText) pair exactly one signal's value — one of
the three base scores, the similarity-scaled fuzzy value (which is always
strictly below a Substring match's score), or 0 — never a sum. -/
theorem signalScore_single_strongest :
    (scoreWordBoundary < scoreExact ∧ scoreSubstring < scoreWordBoundary ∧
      scoreFuzzy < scoreSubstring ∧ 0 < scoreFuzzy) ∧
    ∀ t f : List Char,
      signalScore t f = scoreExact ∨ signalScore t f = scoreWordBoundary ∨
      signalScore t f = scoreSubstring ∨
      (signalScore t f = scoreFuzzy * bestSim t (tokenize f) ∧
        signalScore t f < scoreSubstring) ∨
      signalScore t f = 0 := by
  constructor
  · refine ⟨?_, ?_, ?_, ?_⟩ <;>
      norm_num [scoreExact, scoreWordBoundary, scoreSubstring, scoreFuzzy]
  · intro t f
    unfold signalScore
    split_ifs with h1 h2 h3 h4
    · exact Or.inl rfl
    · exact Or.inr (Or.inl rfl)
    · exact Or.inr (Or.inr (Or.inl rfl))
    · refine Or.inr (Or.inr (Or.inr (Or.inl ⟨rfl, ?_⟩)))
      have hb := bestSim_le_one t (tokenize f)
      have hstep : scoreFuzzy * bestSim t (tokenize f) ≤ scoreFuzzy * 1 :=
        mul_le_mul_of_nonneg_left hb (by norm_num [scoreFuzzy])
      calc scoreFuzzy * bestSim t (tokenize f) ≤ scoreFuzzy * 1 := hstep
        _ < scoreSubstring := by norm_num [scoreFuzzy, scoreSubstring]
    · exact Or.inr (Or.inr (Or.inr (Or.inr rfl)))

/-- The ranker's strict precedence is asymmetric. -/
theorem resultLt_asymm {a b : ScoredResult} :
    resultLt a b → resultLt b a → False := by
  unfold resultLt
  rintro (h | ⟨e1, h⟩) (h' | ⟨e1', h'⟩)
  · exact absurd h' (lt_asymm h)
  · rw [e1'] at h
    exact lt_irrefl _ h
  · rw [e1] at h'
    exact lt_irrefl _ h'
  · rcases h with h | ⟨e2, h⟩ <;> rcases h' with h' | ⟨e2', h'⟩
    · exact absurd h' (lt_asymm h)
    · rw [e2'] at h
      exact lt_irrefl _ h
    · rw [e2] at h'
      exact lt_irrefl _ h'
    · exact absurd h' (lt_asymm h)

/-- The ranker's sort relation is total. -/
theorem resultOrder_total (a b : ScoredResult) :
    resultOrder a b ∨ resultOrder b a := by
  by_cases h : resultLt b a
  · right
    intro h'
    exact resultLt_asymm h' h
  · left
    exact h

/-- Trichotomy for the ranker's precedence: either one result strictly
precedes the other, or they agree on score, `dateAdded`, and key. -/
theorem resultLt_trichotomy (a b : ScoredResult) :
    resultLt a b ∨ resultLt b a ∨
      (a.score = b.score ∧ a.item.dateAdded = b.item.dateAdded ∧
        a.item.key = b.item.key) := by
  rcases lt_trichotomy a.score b.score with h | h | h
  · right; left
    exact Or.inl h
  · rcases lt_trichotomy a.item.dateAdded b.item.dateAdded with h2 | h2 | h2
    · right; left
      exact Or.inr ⟨h.symm, Or.inl h2⟩
    · rcases lt_trichotomy a.item.key b.item.key with h3 | h3 | h3
      · left
        exact Or.inr ⟨h, Or.inr ⟨h2, h3⟩⟩
      · right; right
        exact ⟨h, h2, h3⟩
      · right; left
        exact Or.inr ⟨h.symm, Or.inr ⟨h2.symm, h3⟩⟩
    · left
      exact Or.inr ⟨h, Or.inl h2⟩
  · left
    exact Or.inl h

/-- The ranker's strict precedence is transitive. -/
theorem resultLt_trans {a b c : ScoredResult} :
    resultLt a b → resultLt b c → resultLt a c := by
  unfold resultLt
  rintro (h | ⟨e1, h⟩) (h' | ⟨e1', h'⟩)
  · exact Or.inl (lt_trans h' h)
  · rw [e1'] at h
    exact Or.inl h
  · rw [e1]
    exact Or.inl h'
  · refine Or.inr ⟨e1.trans e1', ?_⟩
    rcases h with h | ⟨e2, h⟩ <;> rcases h' with h' | ⟨e2', h'⟩
    · exact Or.inl (lt_trans h' h)
    · rw [e2'] at h
      exact Or.inl h
    · rw [e2]
      exact Or.inl h'
    · exact Or.inr ⟨e2.trans e2', lt_trans h h'⟩

/-- The ranker's sort relation is transitive. -/
theorem resultOrder_trans {a b c : ScoredResult} :
    resultOrder a b → resultOrder b c → resultOrder a c := by
  intro hab hbc hca
  rcases resultLt_trichotomy b c with h | h | h
  · exact hab (resultLt_trans h hca)
  · exact hbc h
  · apply hab
    obtain ⟨e1, e2, e3⟩ := h
    unfold resultLt at hca ⊢
    rcases hca with h' | ⟨f1, h'⟩
    · rw [← e1] at h'
      exact Or.inl h'
    · refine Or.inr ⟨e1.trans f1, ?_⟩
      rcases h' with h' | ⟨f2, h'⟩
      · rw [← e2] at h'
        exact Or.inl h'
      · rw [← e3] at h'
        exact Or.inr ⟨e2.trans f2, h'⟩

/-- Two results each allowed before the other agree on score,
`dateAdded`, and key. -/
theorem resultOrder_keys_eq {a b : ScoredResult}
    (h1 : resultOrder a b) (h2 : resultOrder b a) :
    a.score = b.score ∧ a.item.dateAdded = b.item.dateAdded ∧
      a.item.key = b.item.key := by
  rcases resultLt_trichotomy a b with h | h | h
  · exact absurd h h2
  · exact absurd h h1
  · exact h

/-- Membership in an ordered insertion. -/
theorem mem_rankInsert (a x : ScoredResult) :
    ∀ l, x ∈ rankInsert a l ↔ x = a ∨ x ∈ l
  | [] => by simp [rankInsert]
  | b :: t => by
    rw [rankInsert]
    by_cases h : resultOrder a b
    · rw [if_pos h]
      simp only [List.mem_cons]
    · rw [if_neg h]
      simp only [List.mem_cons, mem_rankInsert a x t]
      tauto

/-- Ordered insertion is a permutation of consing. -/
theorem rankInsert_perm (a : ScoredResult) :
    ∀ l, List.Perm (rankInsert a l) (a :: l)
  | [] => List.Perm.refl _
  | b :: t => by
    rw [rankInsert]
    by_cases h : resultOrder a b
    · rw [if_pos h]
    · rw [if_neg h]
      exact ((rankInsert_perm a t).cons b).trans (List.Perm.swap a b t)

/-- The ranker's sort permutes its input. -/
theorem rank_perm : ∀ l, List.Perm (rank l) l
  | [] => List.Perm.refl _
  | a :: l => by
    rw [rank]
    exact (rankInsert_perm a (rank l)).trans ((rank_perm l).cons a)

/-- Ordered insertion preserves sortedness. -/
theorem sorted_rankInsert (a : ScoredResult) (l : List ScoredResult)
    (hs : l.Sorted resultOrder) : (rankInsert a l).Sorted resultOrder := by
  induction l with
  | nil => simp [rankInsert]
  | cons b t ih =>
    rw [rankInsert]
    by_cases h : resultOrder a b
    · rw [if_pos h, List.sorted_cons]
      refine ⟨?_, hs⟩
      intro x hx
      rcases List.mem_cons.mp hx with rfl | hx
      · exact h
      · exact resultOrder_trans h (List.rel_of_sorted_cons hs x hx)
    · rw [if_neg h]
      rw [List.sorted_cons] at hs ⊢
      obtain ⟨hb, ht⟩ := hs
      refine ⟨?_, ih ht⟩
      intro x hx
      rcases (mem_rankInsert a x t).mp hx with rfl | hx
      · rcases resultOrder_total x b with h' | h'
        · exact absurd h' h
        · exact h'
      · exact hb x hx

/-- The ranker's sort output is sorted. -/
theorem rank_sorted : ∀ l, (rank l).Sorted resultOrder
  | [] => by simp [rank]
  | a :: l => by
    rw [rank]
    exact sorted_rankInsert a (rank l) (rank_sorted l)

/-- Two sorted permutations of each other whose item keys are distinct
are equal — the ranker's tie-break by key makes the order total. -/
theorem sorted_perm_nodup_eq : ∀ (l₁ l₂ : List ScoredResult),
    List.Perm l₁ l₂ → l₁.Sorted resultOrder → l₂.Sorted resultOrder →
    (l₁.map (fun r => r.item.key)).Nodup → l₁ = l₂
  | [], l₂, hp, _, _, _ => (hp.symm.eq_nil).symm
  | a :: t₁, l₂, hp, hs₁, hs₂, hnd => by
    cases l₂ with
    | nil => exact absurd hp.eq_nil (by simp)
    | cons b t₂ =>
      have hndtail : (t₁.map (fun r => r.item.key)).Nodup := by
        rw [List.map_cons] at hnd
        exact (List.nodup_cons.mp hnd).2
      have hab : a = b := by
        have hbmem : b ∈ a :: t₁ := hp.mem_iff.mpr (List.mem_cons_self b t₂)
        rcases List.mem_cons.mp hbmem with hba | hbt
        · exact hba.symm
        · have hamem : a ∈ b :: t₂ := hp.mem_iff.mp (List.mem_cons_self a t₁)
          rcases List.mem_cons.mp hamem with hab | hat
          · exact hab
          · have h1 : resultOrder a b := List.rel_of_sorted_cons hs₁ b hbt
            have h2 : resultOrder b a := List.rel_of_sorted_cons hs₂ a hat
            have hk := (resultOrder_keys_eq h1 h2).2.2
            exfalso
            rw [List.map_cons] at hnd
            have hnotin := (List.nodup_cons.mp hnd).1
            exact hnotin (hk ▸ List.mem_map_of_mem (fun r => r.item.key) hbt)
      subst hab
      have hp' : List.Perm t₁ t₂ := hp.cons_inv
      have ih := sorted_perm_nodup_eq t₁ t₂ hp'
        (List.sorted_cons.mp hs₁).2 (List.sorted_cons.mp hs₂).2 hndtail
      rw [ih]

/-- C5: the scorer applies the AND-bonus exactly when every query term
produced a nonzero contribution; when some term matched nowhere the raw
score is kept unchanged; when no term matched the item's score is 0 and —
since every emitted search result has a strictly positive score — such an
item is excluded entirely from the results. -/
theorem scorer_and_bonus_exclusion (fields : List WeightedField)
    (terms : List (List Char)) :
    ((∀ t ∈ terms, termContribution fields t ≠ 0) →
      scoreItem fields terms = andBonusFactor * rawScore fields terms) ∧
    ((∃ t ∈ terms, termContribution fields t = 0) →
      scoreItem fields terms = rawScore fields terms) ∧
    ((∀ t ∈ terms, termContribution fields t = 0) →
      scoreItem fields terms = 0) ∧
    ∀ (store : String → Option String) (q : String) (limit : Option Int)
      (items : List SpecItem) (r : ScoredResult),
        r ∈ (searchPapers store q limit items).items → 0 < r.score := by
  refine ⟨?_, ?_, ?_, ?_⟩
  · intro h
    have hall : allTermsMatch fields terms = true := by
      unfold allTermsMatch
      rw [List.all_eq_true]
      intro t ht
      exact decide_eq_true (h t ht)
    unfold scoreItem
    rw [if_pos hall]
  · rintro ⟨t, ht, h0⟩
    have hnall : allTermsMatch fields terms ≠ true := by
      unfold allTermsMatch
      intro hall
      rw [List.all_eq_true] at hall
      have hth := hall t ht
      rw [decide_eq_true_eq] at hth
      exact hth h0
    unfold scoreItem
    rw [if_neg hnall]
  · intro h
    have hraw : rawScore fields terms = 0 := by
      unfold rawScore
      apply List.sum_eq_zero
      intro x hx
      rw [List.mem_map] at hx
      obtain ⟨t, ht, rfl⟩ := hx
      exact h t ht
    unfold scoreItem
    split_ifs <;> simp [hraw]
  · intro store q limit items r hr
    simp only [searchPapers] at hr
    have h1 : r ∈ rank (scoredResults store (tokenize q.data) items) :=
      List.mem_of_mem_take hr
    have h2 : r ∈ scoredResults store (tokenize q.data) items :=
      (rank_perm _).mem_iff.mp h1
    rw [scoredResults, List.mem_filterMap] at h2
    obtain ⟨it, _, he⟩ := h2
    by_cases hpos : 0 < scoreItem
        (extractFields (resolveCitationKey store it) it) (tokenize q.data)
    · rw [scoreEntry, if_pos hpos] at he
      obtain ⟨rfl⟩ := Option.some.inj he
      exact hpos
    · rw [scoreEntry, if_neg hpos] at he
      exact absurd he (by simp)

/-- Witness for C5 at concrete inputs: a query whose terms all match
(bonus applied), one with a non-matching term (no bonus), one where no
term matches (score 0), and an emitted concrete result with a positive
score. -/
theorem scorer_and_bonus_exclusion_witness :
    scoreItem fieldsW (tokenize "alpha beta".data) =
      andBonusFactor * rawScore fieldsW (tokenize "alpha beta".data) ∧
    scoreItem fieldsW (tokenize "alpha zzzz".data) =
      rawScore fieldsW (tokenize "alpha zzzz".data) ∧
    scoreItem fieldsW (tokenize "qqqq".data) = 0 ∧
    0 < (ScoredResult.mk itemP (108 / 5) ["title"]).score :=
  ⟨(scorer_and_bonus_exclusion fieldsW (tokenize "alpha beta".data)).1
      (by with_unfolding_all decide),
   (scorer_and_bonus_exclusion fieldsW (tokenize "alpha zzzz".data)).2.1
      (by with_unfolding_all decide),
   (scorer_and_bonus_exclusion fieldsW (tokenize "qqqq".data)).2.2.1
      (by with_unfolding_all decide),
   (scorer_and_bonus_exclusion fieldsW []).2.2.2 (fun _ => none) "alpha" none
      [itemP] (ScoredResult.mk itemP (108 / 5) ["title"])
      (by with_unfolding_all decide)⟩

/-- C6: the citation-key resolver gives strict priority to a key parsed
from the item's "extra" field over the secondary store, and its memoized
form resolves each item at most once — a second call with the updated
cache returns the cached value and leaves the cache unchanged. -/
theorem citationKey_priority_memoized (store : String → Option String)
    (cache : CiteCache) (it : SpecItem) (k : String) (r : Option String)
    (c' : CiteCache) :
    (parseExtraCitationKey it.extra = some k →
      resolveCitationKey store it = some k) ∧
    (resolveMemo store cache it = (r, c') →
      resolveMemo store c' it = (r, c')) := by
  constructor
  · intro h
    unfold resolveCitationKey
    rw [h]
  · intro h
    unfold resolveMemo at h
    cases hc : cacheFind cache it.key with
    | some v =>
      rw [hc] at h
      injection h with h1 h2
      subst h1
      subst h2
      unfold resolveMemo
      rw [hc]
    | none =>
      rw [hc] at h
      injection h with h1 h2
      subst h1
      subst h2
      unfold resolveMemo
      simp [cacheFind]

/-- Witness for C6: an item whose "extra" field carries
`Citation Key: ABC123` resolves to ABC123 even though the secondary store
maps every item to XYZ999, and the memoized resolver is idempotent on the
updated cache. -/
theorem citationKey_priority_memoized_witness :
    resolveCitationKey storeXYZ itemCite = some "ABC123" ∧
    resolveMemo storeXYZ [("K1", some "ABC123")] itemCite =
      (some "ABC123", [("K1", some "ABC123")]) :=
  ⟨(citationKey_priority_memoized storeXYZ [] itemCite "ABC123" none []).1
      (by decide),
   (citationKey_priority_memoized storeXYZ [] itemCite "ABC123"
      (some "ABC123") [("K1", some "ABC123")]).2 (by decide)⟩

/-- The item of each scored result is its source item, so the scored
results' items are the filter of the input items by survival. -/
theorem scoredResults_map_item (store : String → Option String)
    (terms : List (List Char)) :
    ∀ items : List SpecItem,
      (scoredResults store terms items).map (fun r => r.item) =
        items.filter (fun it => (scoreEntry store terms it).isSome)
  | [] => by simp [scoredResults]
  | it :: rest => by
    rw [scoredResults, List.filterMap_cons, List.filter_cons]
    cases he : scoreEntry store terms it with
    | none =>
      simp only [he, Option.isSome_none, Bool.false_eq_true, if_false]
      exact scoredResults_map_item store terms rest
    | some r =>
      have hri : r.item = it := by
        by_cases hpos : 0 < scoreItem
            (extractFields (resolveCitationKey store it) it) terms
        · rw [scoreEntry, if_pos hpos] at he
          obtain ⟨rfl⟩ := Option.some.inj he
          rfl
        · rw [scoreEntry, if_neg hpos] at he
          exact absurd he (by simp)
      have ih := scoredResults_map_item store terms rest
      simp only [scoredResults] at ih
      simp only [he, Option.isSome_some, if_true, List.map_cons, hri]
      rw [ih]

/-- C7: the search output is a deterministic function of the query and
the item set — for identical inputs the output is identical, and even
presenting the same items in a different order yields the same ranked
output, because the ranker's sort (score descending, `dateAdded`
descending, key ascending) is a total order on items with distinct keys. -/
theorem searchPapers_deterministic (store : String → Option String)
    (q : String) (limit : Option Int) (items₁ items₂ : List SpecItem)
    (hperm : List.Perm items₁ items₂)
    (hnd : (items₁.map SpecItem.key).Nodup) :
    searchPapers store q limit items₁ = searchPapers store q limit items₂ := by
  have hsc : List.Perm (scoredResults store (tokenize q.data) items₁)
      (scoredResults store (tokenize q.data) items₂) :=
    hperm.filterMap _
  have hnd₁ : ((scoredResults store (tokenize q.data) items₁).map
      (fun r => r.item.key)).Nodup := by
    have hmm : (scoredResults store (tokenize q.data) items₁).map
        (fun r => r.item.key) =
        ((scoredResults store (tokenize q.data) items₁).map
          (fun r => r.item)).map (fun it => it.key) := by
      rw [List.map_map]
      rfl
    rw [hmm, scoredResults_map_item]
    exact hnd.sublist ((List.filter_sublist items₁).map SpecItem.key)
  have hrperm : List.Perm (rank (scoredResults store (tokenize q.data) items₁))
      (rank (scoredResults store (tokenize q.data) items₂)) :=
    (rank_perm _).trans (hsc.trans (rank_perm _).symm)
  have hndr : ((rank (scoredResults store (tokenize q.data) items₁)).map
      (fun r => r.item.key)).Nodup :=
    ((rank_perm _).map (fun r => r.item.key)).nodup_iff.mpr hnd₁
  have heq := sorted_perm_nodup_eq _ _ hrperm (rank_sorted _) (rank_sorted _)
    hndr
  simp only [searchPapers]
  rw [heq, hsc.length_eq]

/-- Witness for C7: two concrete items with distinct keys, presented in
both orders, produce the same search output. -/
theorem searchPapers_deterministic_witness :
    searchPapers (fun _ => none) "alpha" none [itemP, itemQ] =
      searchPapers (fun _ => none) "alpha" none [itemQ, itemP] :=
  searchPapers_deterministic (fun _ => none) "alpha" none [itemP, itemQ]
    [itemQ, itemP] (List.Perm.swap itemQ itemP []) (by decide)

end ZoteroMcp
